import Mathlib

/-!
Shallow embedding of the ytdownloader HTTP service (primary snapshot
`src/unnamed/part_000`; the older snapshot `src/index.js` differs in the
bucketing/sorting details the spec flags as an open question).

JavaScript values are modelled as follows: possibly-`undefined` fields are
`Option`; `a || b` on strings treats `""` and `undefined`/`none` as falsy;
`String.prototype.includes` is substring search; `parseInt` takes an optional
sign and a decimal-digit run after trimming (`none` models `NaN`); property
access on `undefined` (a thrown `TypeError`) is `Except.error`.
-/

namespace YtDl

/-- Does list `s` start with `pat`? -/
def startsWithL : List Char → List Char → Bool
  | _, [] => true
  | [], _ :: _ => false
  | c :: cs, d :: ds => c == d && startsWithL cs ds

/-- Substring occurrence, modelling JS `String.prototype.includes`. -/
def hasSubL (pat : List Char) : List Char → Bool
  | [] => startsWithL [] pat
  | c :: cs => startsWithL (c :: cs) pat || hasSubL pat cs

/-- JS `s.includes(pat)`. -/
def jsIncludes (s pat : String) : Bool :=
  hasSubL pat.toList s.toList

/-- JS `m?.includes(pat)` coerced to boolean (`undefined` is falsy). -/
def optIncludes (m : Option String) (pat : String) : Bool :=
  match m with
  | some s => jsIncludes s pat
  | none => false

/-- JS `a || b` for a possibly-undefined string `a` (both `undefined` and
`""` are falsy). -/
def jsOr (a : Option String) (b : String) : String :=
  match a with
  | none => b
  | some s => if s = "" then b else s

/-- Numeric value of a decimal digit character. -/
def digitVal (c : Char) : Nat := c.toNat - 48

/-- Value of a decimal digit run extended to the left of accumulator `acc`;
stops at the first non-digit. -/
def digitRunVal (acc : Nat) : List Char → Nat
  | [] => acc
  | c :: cs => if c.isDigit then digitRunVal (acc * 10 + digitVal c) cs else acc

/-- Leading decimal-digit run of a character list, as a number; `none` when
the list does not start with a digit. -/
def digitsVal : List Char → Option Nat
  | [] => none
  | c :: cs => if c.isDigit then some (digitRunVal (digitVal c) cs) else none

/-- JS `parseInt` on a decimal string: trim leading whitespace, optional
sign, then a digit run; `none` models `NaN`.  (Radix prefixes such as `0x`
are not used by this program's inputs and are not modelled.) -/
def parseIntJS (s : String) : Option Int :=
  match s.toList.dropWhile (fun c => c.isWhitespace) with
  | '-' :: rest => (digitsVal rest).map (fun n => -(n : Int))
  | '+' :: rest => (digitsVal rest).map (fun n => (n : Int))
  | l => (digitsVal l).map (fun n => (n : Int))

/-- JS `String.prototype.split` with a single-comma separator: `""` yields
`[""]`, and a trailing comma yields a trailing empty piece. -/
def splitComma : List Char → List (List Char)
  | [] => [[]]
  | c :: cs =>
    if c = ',' then [] :: splitComma cs
    else
      match splitComma cs with
      | [] => [[c]]
      | g :: gs => (c :: g) :: gs

/-- JS `String.prototype.trim`: strip whitespace from both ends. -/
def trimL (l : List Char) : List Char :=
  ((l.dropWhile (fun c => c.isWhitespace)).reverse.dropWhile
    (fun c => c.isWhitespace)).reverse

/-- JS `l.slice(0, e)`: a negative end counts from the end of the list. -/
def jsSliceZero {α : Type} (l : List α) (e : Int) : List α :=
  if e < 0 then l.take (max ((l.length : Int) + e) 0).toNat
  else l.take e.toNat

/-- The regex search `/(\d+)p/.exec` as a one-pass state machine: `st` is
`some acc` while inside a digit run with value `acc` so far (succeed on
`p`, extend on a digit, otherwise drop back to searching), and `none` while
looking for the start of a digit run.  This is exactly the backtracking
behaviour of the regex: a maximal digit run not followed by `p` can never
match at a later start inside the same run. -/
def scanQuality (st : Option Nat) : List Char → Option Nat
  | [] => none
  | c :: cs =>
    match st with
    | some acc =>
      if c.isDigit then scanQuality (some (acc * 10 + digitVal c)) cs
      else if c = 'p' then some acc
      else scanQuality none cs
    | none =>
      if c.isDigit then scanQuality (some (digitVal c)) cs
      else scanQuality none cs

/-- The `getQualityNum` helper of `formatVideoData` (src/unnamed/part_000 lines
32-35): `quality.match(/(\d+)p/)`, `parseInt` of the capture, else 0. -/
def getQualityNum (quality : String) : Nat :=
  (scanQuality none quality.toList).getD 0

/-- A raw stream-format descriptor as produced by the external resolver
(`ytdl-core`); every field the classifier touches, optional where the
resolver may omit it. -/
structure StreamFormat where
  qualityLabel : Option String
  quality : Option String
  audioQuality : Option String
  url : String
  mimeType : Option String
  hasVideo : Bool
  hasAudio : Bool
  contentLength : Option String
  container : Option String
  codecs : Option String
  deriving Repr, DecidableEq

/-- A mapped video-capable format entry (src/unnamed/part_000 lines 21-29). -/
structure VideoFormatOut where
  quality : String
  url : String
  mimeType : Option String
  hasAudio : Bool
  fileSize : Option Int
  container : Option String
  codecs : Option String
  deriving Repr, DecidableEq

/-- A mapped audio-only format entry (src/unnamed/part_000 lines 42-49). -/
structure AudioFormatOut where
  quality : String
  url : String
  mimeType : Option String
  hasAudio : Bool
  fileSize : Option Int
  container : Option String
  deriving Repr, DecidableEq

/-- JS `format.contentLength ? parseInt(format.contentLength) : null`
(`""`/`undefined` are falsy; a `NaN` parse also serialises as null). -/
def fileSizeOf (contentLength : Option String) : Option Int :=
  match contentLength with
  | none => none
  | some s => if s = "" then none else parseIntJS s

/-- The video-format mapper (src/unnamed/part_000 lines 21-29). -/
def mapVideoFormat (f : StreamFormat) : VideoFormatOut :=
  { quality := jsOr f.qualityLabel (jsOr f.quality "unknown")
    url := f.url
    mimeType := f.mimeType
    hasAudio := f.hasAudio
    fileSize := fileSizeOf f.contentLength
    container := f.container
    codecs := f.codecs }

/-- The audio-format mapper (src/unnamed/part_000 lines 42-49). -/
def mapAudioFormat (f : StreamFormat) : AudioFormatOut :=
  { quality := jsOr f.audioQuality "audio"
    url := f.url
    mimeType := f.mimeType
    hasAudio := true
    fileSize := fileSizeOf f.contentLength
    container := f.container }

/-- The video-bucket filter `format => format.hasVideo`. -/
def videoPred (f : StreamFormat) : Bool := f.hasVideo

/-- The audio-bucket filter `format => format.hasAudio && !format.hasVideo`. -/
def audioPred (f : StreamFormat) : Bool := f.hasAudio && !f.hasVideo

/-- The sort key of a mapped video format. -/
def qualityNumOf (f : VideoFormatOut) : Nat := getQualityNum f.quality

/-- The relation the video list ends up sorted by: descending extracted
quality number (non-strict). -/
def qGe (a b : VideoFormatOut) : Prop := qualityNumOf b ≤ qualityNumOf a

instance : DecidableRel qGe := fun _ _ => Nat.decLe _ _

/-- Spec-side predicate: the label contains a digit immediately followed by
`p` (i.e. it matches the pattern `<N>p` somewhere). -/
def hasPatD : List Char → Bool
  | c :: d :: rest => (c.isDigit && d == 'p') || hasPatD (d :: rest)
  | _ => false

/-- Numeric value of a digit string (most significant digit first). -/
def digitsValue (ds : List Char) : Nat :=
  ds.foldl (fun a c => a * 10 + digitVal c) 0

/-- Stable insertion of `x` into an already-processed list under the JS
comparator `(a, b) => getQualityNum(b.quality) - getQualityNum(a.quality)`:
`x` goes before the first element whose key is not greater than its own,
so elements comparing equal keep their original relative order. -/
def insertByQ (x : VideoFormatOut) : List VideoFormatOut → List VideoFormatOut
  | [] => [x]
  | y :: ys =>
    if qualityNumOf x < qualityNumOf y then y :: insertByQ x ys
    else x :: y :: ys

/-- The stable descending sort performed by `.sort(...)` on the video list
(JS `Array.prototype.sort` is stable). -/
def sortByQDesc : List VideoFormatOut → List VideoFormatOut
  | [] => []
  | x :: xs => insertByQ x (sortByQDesc xs)

/-- The `videoFormats` list (src/unnamed/part_000 lines 19-37): filter on
`hasVideo`, map, then sort descending by extracted quality number. -/
def videoBucket (formats : List StreamFormat) : List VideoFormatOut :=
  sortByQDesc ((formats.filter videoPred).map mapVideoFormat)

/-- The `audioFormats` list (src/unnamed/part_000 lines 40-49): filter on
`hasAudio && !hasVideo`, then map. -/
def audioBucket (formats : List StreamFormat) : List AudioFormatOut :=
  (formats.filter audioPred).map mapAudioFormat

/-- Predicate `f => f.container === 'mp4' || f.mimeType?.includes('mp4')`. -/
def vMp4Pred (f : VideoFormatOut) : Bool :=
  f.container == some "mp4" || optIncludes f.mimeType "mp4"

/-- Predicate `f => f.container === 'webm' || f.mimeType?.includes('webm')`. -/
def vWebmPred (f : VideoFormatOut) : Bool :=
  f.container == some "webm" || optIncludes f.mimeType "webm"

/-- Audio variant of the mp4-container test (the group is keyed `mp3` in
the output). -/
def aMp4Pred (f : AudioFormatOut) : Bool :=
  f.container == some "mp4" || optIncludes f.mimeType "mp4"

/-- Audio variant of the webm-container test. -/
def aWebmPred (f : AudioFormatOut) : Bool :=
  f.container == some "webm" || optIncludes f.mimeType "webm"

/-- The `format_options.video.mp4` group (src/unnamed/part_000 line 61). -/
def videoMp4Group (formats : List StreamFormat) : List VideoFormatOut :=
  (videoBucket formats).filter vMp4Pred

/-- The `format_options.video.webm` group (src/unnamed/part_000 line 62). -/
def videoWebmGroup (formats : List StreamFormat) : List VideoFormatOut :=
  (videoBucket formats).filter vWebmPred

/-- The `format_options.audio.mp3` group (src/unnamed/part_000 line 65). -/
def audioMp3Group (formats : List StreamFormat) : List AudioFormatOut :=
  (audioBucket formats).filter aMp4Pred

/-- The `format_options.audio.webm` group (src/unnamed/part_000 line 66). -/
def audioWebmGroup (formats : List StreamFormat) : List AudioFormatOut :=
  (audioBucket formats).filter aWebmPred

/-- A thumbnail entry of the metadata record. -/
structure Thumbnail where
  url : String
  deriving Repr, DecidableEq

/-- The author object of the metadata record; its `name` may be absent. -/
structure AuthorR where
  name : Option String
  deriving Repr, DecidableEq

/-- The `videoInfo.videoDetails` metadata record.  Fields that
`formatVideoData` guards (or fails to guard) against absence are `Option`. -/
structure VideoDetails where
  title : String
  thumbnails : Option (List Thumbnail)
  description : Option String
  lengthSeconds : String
  author : Option AuthorR
  viewCount : String
  deriving Repr, DecidableEq

/-- JS `videoInfo.videoDetails.author?.name || 'Unknown'`. -/
def authorNameOf (author : Option AuthorR) : String :=
  match author with
  | none => "Unknown"
  | some a => jsOr a.name "Unknown"

/-- The nested `format_options.video` object. -/
structure VideoGroups where
  mp4 : List VideoFormatOut
  webm : List VideoFormatOut
  deriving Repr, DecidableEq

/-- The nested `format_options.audio` object. -/
structure AudioGroups where
  mp3 : List AudioFormatOut
  webm : List AudioFormatOut
  deriving Repr, DecidableEq

/-- The `format_options` tree. -/
structure FormatOptions where
  video : VideoGroups
  audio : AudioGroups
  deriving Repr, DecidableEq

/-- The classifier's output object (src/unnamed/part_000 lines 51-69). -/
structure ClassifiedResponse where
  title : String
  image : Option String
  description : Option String
  lengthSeconds : String
  author : String
  viewCount : String
  expiresInSeconds : String
  format_options : FormatOptions
  deriving Repr, DecidableEq

/-- The classifier `formatVideoData` (src/unnamed/part_000 lines 17-70).  `Except.error`
models the `TypeError` thrown when `formats` is `undefined`
(`formats.filter`) or when `videoDetails.thumbnails` is `undefined`
(`thumbnails.length`); `thumbnails[len - 1]?.url` tolerates an empty list. -/
def formatVideoData (vd : VideoDetails) (fmts : Option (List StreamFormat)) :
    Except Unit ClassifiedResponse :=
  match fmts with
  | none => Except.error ()
  | some formats =>
    match vd.thumbnails with
    | none => Except.error ()
    | some thumbs =>
      Except.ok
        { title := vd.title
          image := thumbs.getLast?.map (fun t => t.url)
          description := vd.description
          lengthSeconds := vd.lengthSeconds
          author := authorNameOf vd.author
          viewCount := vd.viewCount
          expiresInSeconds := "21540"
          format_options :=
            { video := { mp4 := videoMp4Group formats
                         webm := videoWebmGroup formats }
              audio := { mp3 := audioMp3Group formats
                         webm := audioWebmGroup formats } } }

/-- The resolver's result: `videoDetails` plus a possibly-absent `formats`
array. -/
structure VideoInfo where
  videoDetails : VideoDetails
  formats : Option (List StreamFormat)
  deriving Repr, DecidableEq

/-- Response of the `/extract` handler: HTTP status, the classified data on
success, and the `technical` field that echoes the resolver's raw error
message on the fall-through 500. -/
structure ExtractReply where
  status : Nat
  data : Option ClassifiedResponse
  technical : Option String
  deriving Repr, DecidableEq

/-- The `GET /extract` handler (src/unnamed/part_000 lines 88-171), with the
external collaborators passed as oracles: `validateURL` and `getInfo` (whose
`Except.error` carries the thrown error's message).  A missing or empty
`url` is falsy (`!url`), then validation, then the error-message substring
chain, then the empty-formats guard; a `TypeError` escaping
`formatVideoData` is caught by the outer handler as a 500. -/
def extractHandler (validateURL : String → Bool)
    (getInfo : String → Except String VideoInfo)
    (url : Option String) : ExtractReply :=
  match url with
  | none => ⟨400, none, none⟩
  | some u =>
    if u = "" then ⟨400, none, none⟩
    else if !validateURL u then ⟨400, none, none⟩
    else
      match getInfo u with
      | Except.error e =>
        if jsIncludes e "Video unavailable" then ⟨404, none, none⟩
        else if jsIncludes e "Sign in to confirm" then ⟨403, none, none⟩
        else ⟨500, none, some e⟩
      | Except.ok info =>
        match info.formats with
        | none => ⟨500, none, none⟩
        | some [] => ⟨500, none, none⟩
        | some fs =>
          match formatVideoData info.videoDetails (some fs) with
          | Except.ok d => ⟨200, some d, none⟩
          | Except.error _ => ⟨500, none, none⟩

/-- A raw search-library video entry (`yt-search`); the handler reads the
nested `duration.timestamp` and `author.name`. -/
structure SearchVideo where
  videoId : String
  title : String
  description : String
  durationTimestamp : String
  views : Nat
  uploaded : String
  thumbnail : String
  authorName : String
  url : String
  deriving Repr, DecidableEq

/-- A mapped `/search` result entry (src/unnamed/part_000 lines 189-199). -/
structure SearchVideoOut where
  videoId : String
  title : String
  description : String
  duration : String
  views : Nat
  uploaded : String
  thumbnail : String
  author : String
  url : String
  deriving Repr, DecidableEq

/-- The per-video mapper of the `/search` handler. -/
def mapSearchVideo (v : SearchVideo) : SearchVideoOut :=
  { videoId := v.videoId
    title := v.title
    description := v.description
    duration := v.durationTimestamp
    views := v.views
    uploaded := v.uploaded
    thumbnail := v.thumbnail
    author := v.authorName
    url := v.url }

/-- Response of the `/search` handler. -/
structure SearchReply where
  status : Nat
  query : Option String
  results : Option (List SearchVideoOut)
  total : Option Nat
  details : Option String
  deriving Repr, DecidableEq

/-- The `GET /search` handler (src/unnamed/part_000 lines 174-214).
`limit` defaults to the number 10 (`parseInt(10) = 10`); otherwise the raw
query-string value goes through `parseInt`, and `slice(0, NaN)` yields an
empty list. -/
def searchHandler (search : String → Except String (List SearchVideo))
    (q : Option String) (limit : Option String) : SearchReply :=
  match q with
  | none => ⟨400, none, none, none, none⟩
  | some qs =>
    if qs = "" then ⟨400, none, none, none, none⟩
    else
      match search qs with
      | Except.error e => ⟨500, none, none, none, some e⟩
      | Except.ok vids =>
        let n : Option Int :=
          match limit with
          | none => some 10
          | some s => parseIntJS s
        let sliced :=
          match n with
          | none => ([] : List SearchVideo)
          | some i => jsSliceZero vids i
        let videos := sliced.map mapSearchVideo
        ⟨200, some qs, some videos, some videos.length, none⟩

/-- One entry of the `/bulk-extract` results array. -/
structure BulkEntry where
  url : String
  status : String
  data : Option ClassifiedResponse
  errMsg : Option String
  deriving Repr, DecidableEq

/-- The `/bulk-extract` loop body for one URL (src/unnamed/part_000 lines
276-300): validate, resolve, classify; any thrown error (resolver failure
or a `TypeError` out of `formatVideoData`) is caught and recorded as an
error entry for that URL alone. -/
def bulkItem (validateURL : String → Bool)
    (getInfo : String → Except String VideoInfo) (u : String) : BulkEntry :=
  if validateURL u then
    match getInfo u with
    | Except.ok info =>
      match formatVideoData info.videoDetails info.formats with
      | Except.ok d => ⟨u, "success", some d, none⟩
      | Except.error _ => ⟨u, "error", none, none⟩
    | Except.error e => ⟨u, "error", none, some e⟩
  else ⟨u, "error", none, some "Invalid YouTube URL"⟩

/-- Response of the `/bulk-extract` handler. -/
structure BulkReply where
  status : Nat
  total : Option Nat
  successful : Option Nat
  failed : Option Nat
  results : Option (List BulkEntry)
  deriving Repr, DecidableEq

/-- The `GET /bulk-extract` handler (src/unnamed/part_000 lines 262-316):
split the comma-separated `urls` on commas, trim each, process
sequentially, then count successes and failures from the results. -/
def bulkHandler (validateURL : String → Bool)
    (getInfo : String → Except String VideoInfo)
    (urls : Option String) : BulkReply :=
  match urls with
  | none => ⟨400, none, none, none, none⟩
  | some s =>
    if s = "" then ⟨400, none, none, none, none⟩
    else
      let urlArray := (splitComma s.toList).map (fun u => String.mk (trimL u))
      let results := urlArray.map (bulkItem validateURL getInfo)
      ⟨200, some urlArray.length,
        some (results.filter (fun r => r.status == "success")).length,
        some (results.filter (fun r => r.status == "error")).length,
        some results⟩

/-! Concrete sample values used by witnesses and counterexamples. -/

/-- A combined (video+audio) mp4 format. -/
def sampleCombined : StreamFormat :=
  ⟨some "360p", none, none, "u1", some "video/mp4", true, true,
    some "100", some "mp4", some "avc1"⟩

/-- A video-only webm format. -/
def sampleVideoOnly : StreamFormat :=
  ⟨some "720p", none, none, "u2", some "video/webm", true, false,
    none, some "webm", none⟩

/-- An audio-only mp4-container format. -/
def sampleAudioOnly : StreamFormat :=
  ⟨none, none, some "AUDIO_QUALITY_MEDIUM", "u3", some "audio/mp4",
    false, true, none, some "mp4", none⟩

/-- A format with neither capability flag set. -/
def noCapFormat : StreamFormat :=
  ⟨none, none, none, "u0", some "text/plain", false, false, none, none, none⟩

/-- First of two equal-quality video formats. -/
def dupA : StreamFormat :=
  ⟨some "360p", none, none, "a", some "video/mp4", true, false,
    none, some "mp4", none⟩

/-- Second of two equal-quality video formats. -/
def dupB : StreamFormat :=
  ⟨some "360p", none, none, "b", some "video/mp4", true, false,
    none, some "mp4", none⟩

/-- A complete metadata record. -/
def sampleDetails : VideoDetails :=
  ⟨"t", some [⟨"th"⟩], some "d", "9", some ⟨some "auth"⟩, "3"⟩

/-- A metadata record with no thumbnails array at all. -/
def noThumbsDetails : VideoDetails :=
  ⟨"t", none, some "d", "9", some ⟨some "auth"⟩, "3"⟩

/-- A metadata record with an empty thumbnails list, no author and no
description. -/
def bareDetails : VideoDetails :=
  ⟨"t", some [], none, "9", none, "3"⟩

/-- A resolver result carrying the sample metadata and formats. -/
def sampleInfo : VideoInfo :=
  ⟨sampleDetails, some [sampleCombined, sampleVideoOnly, sampleAudioOnly]⟩

/-- One raw search-library entry. -/
def sampleSearchVideo : SearchVideo :=
  ⟨"id", "title", "desc", "3:00", 7, "ago", "thumb", "auth", "u"⟩

/-- Five raw search-library entries. -/
def fiveSearchVideos : List SearchVideo := List.replicate 5 sampleSearchVideo

/-! Helper lemmas about the stable descending sort. -/

theorem mem_insertByQ {x a : VideoFormatOut} {l : List VideoFormatOut} :
    a ∈ insertByQ x l ↔ a = x ∨ a ∈ l := by
  induction l with
  | nil => simp [insertByQ]
  | cons y ys ih =>
    by_cases h : qualityNumOf x < qualityNumOf y
    · rw [insertByQ, if_pos h]
      simp only [List.mem_cons, ih]
      tauto
    · rw [insertByQ, if_neg h]
      simp only [List.mem_cons]

theorem mem_sortByQDesc {a : VideoFormatOut} {l : List VideoFormatOut} :
    a ∈ sortByQDesc l ↔ a ∈ l := by
  induction l with
  | nil => simp [sortByQDesc]
  | cons x xs ih =>
    rw [sortByQDesc, mem_insertByQ]
    simp [ih]

theorem length_insertByQ (x : VideoFormatOut) (l : List VideoFormatOut) :
    (insertByQ x l).length = l.length + 1 := by
  induction l with
  | nil => rfl
  | cons y ys ih =>
    by_cases h : qualityNumOf x < qualityNumOf y
    · rw [insertByQ, if_pos h]
      simp [ih]
    · rw [insertByQ, if_neg h]
      rfl

theorem length_sortByQDesc (l : List VideoFormatOut) :
    (sortByQDesc l).length = l.length := by
  induction l with
  | nil => rfl
  | cons x xs ih => rw [sortByQDesc, length_insertByQ, ih, List.length_cons]

theorem pairwise_insertByQ {x : VideoFormatOut} {l : List VideoFormatOut}
    (h : List.Pairwise qGe l) : List.Pairwise qGe (insertByQ x l) := by
  induction l with
  | nil => simp [insertByQ, List.pairwise_singleton]
  | cons y ys ih =>
    rcases List.pairwise_cons.mp h with ⟨hy, hys⟩
    by_cases hc : qualityNumOf x < qualityNumOf y
    · rw [insertByQ, if_pos hc]
      refine List.pairwise_cons.mpr ⟨?_, ih hys⟩
      intro b hb
      rcases mem_insertByQ.mp hb with rfl | hb
      · exact Nat.le_of_lt hc
      · exact hy b hb
    · rw [insertByQ, if_neg hc]
      refine List.pairwise_cons.mpr ⟨?_, h⟩
      intro b hb
      rcases List.mem_cons.mp hb with rfl | hb
      · exact Nat.not_lt.mp hc
      · exact Nat.le_trans (hy b hb) (Nat.not_lt.mp hc)

theorem sorted_sortByQDesc (l : List VideoFormatOut) :
    List.Pairwise qGe (sortByQDesc l) := by
  induction l with
  | nil => simp [sortByQDesc]
  | cons x xs ih => exact pairwise_insertByQ ih

theorem filter_insertByQ (k : Nat) (x : VideoFormatOut)
    (l : List VideoFormatOut) :
    (insertByQ x l).filter (fun f => qualityNumOf f == k)
      = if qualityNumOf x = k
        then x :: l.filter (fun f => qualityNumOf f == k)
        else l.filter (fun f => qualityNumOf f == k) := by
  induction l with
  | nil =>
    rw [insertByQ]
    by_cases hx : qualityNumOf x = k
    · simp [hx]
    · simp [hx]
  | cons y ys ih =>
    by_cases hc : qualityNumOf x < qualityNumOf y
    · rw [insertByQ, if_pos hc, List.filter_cons, ih]
      by_cases hx : qualityNumOf x = k
      · have hy : ¬ qualityNumOf y = k := by omega
        simp [hx, hy]
      · by_cases hy : qualityNumOf y = k
        · simp [hx, hy]
        · simp [hx, hy]
    · rw [insertByQ, if_neg hc, List.filter_cons]
      by_cases hx : qualityNumOf x = k
      · simp [hx]
      · simp [hx]

theorem filter_sortByQDesc (k : Nat) (l : List VideoFormatOut) :
    (sortByQDesc l).filter (fun f => qualityNumOf f == k)
      = l.filter (fun f => qualityNumOf f == k) := by
  induction l with
  | nil => rfl
  | cons x xs ih =>
    rw [sortByQDesc, filter_insertByQ, List.filter_cons]
    by_cases hx : qualityNumOf x = k
    · simp [hx, ih]
    · simp [hx, ih]

/-! Helper lemmas about the quality-number extraction. -/

theorem scanQuality_run (suf : List Char) (ds : List Char)
    (hds : ∀ c ∈ ds, c.isDigit = true) (acc : Nat) :
    scanQuality (some acc) (ds ++ 'p' :: suf)
      = some (ds.foldl (fun a c => a * 10 + digitVal c) acc) := by
  induction ds generalizing acc with
  | nil =>
    have hp : ('p' : Char).isDigit = false := by decide
    simp [scanQuality, hp]
  | cons d rest ih =>
    have hd : d.isDigit = true := hds d (List.mem_cons_self d rest)
    have hrest : ∀ c ∈ rest, c.isDigit = true :=
      fun c hc => hds c (List.mem_cons_of_mem d hc)
    simp only [List.cons_append, scanQuality, hd, if_pos, List.foldl_cons]
    exact ih hrest (acc * 10 + digitVal d)

theorem hasPatD_of_append (xs ys : List Char)
    (h : hasPatD (xs ++ ys) = false) : hasPatD xs = false := by
  induction xs with
  | nil => rfl
  | cons x xs ih =>
    cases xs with
    | nil => rfl
    | cons y rest =>
      rw [List.cons_append, List.cons_append, hasPatD,
        Bool.or_eq_false_iff] at h
      rw [hasPatD, Bool.or_eq_false_iff]
      refine ⟨h.1, ih ?_⟩
      rw [List.cons_append]
      exact h.2

/-- Scanning a prefix that holds no digit-immediately-followed-by-`p` and
does not end in a digit leaves the machine searching at the rest of the
input, in both machine states. -/
theorem scanQuality_entry : ∀ (n : Nat) (pre : List Char), pre.length ≤ n →
    ∀ (d : Char) (t : List Char), d.isDigit = true →
    hasPatD (pre ++ [d]) = false →
    (∀ c, pre.getLast? = some c → c.isDigit = false) →
    (scanQuality none (pre ++ d :: t) = scanQuality none (d :: t)
      ∧ ∀ acc, pre ≠ [] → (∀ r, pre ≠ 'p' :: r) →
          scanQuality (some acc) (pre ++ d :: t)
            = scanQuality none (d :: t)) := by
  intro n
  induction n with
  | zero =>
    intro pre hlen d t _ _ _
    have hpre : pre = [] := List.eq_nil_of_length_eq_zero (Nat.le_zero.mp hlen)
    subst hpre
    exact ⟨rfl, fun _ hne _ => absurd rfl hne⟩
  | succ n ih =>
    intro pre hlen d t hd hpat hlast
    cases pre with
    | nil => exact ⟨rfl, fun _ hne _ => absurd rfl hne⟩
    | cons c cs =>
      cases cs with
      | nil =>
        have hc : c.isDigit = false := hlast c rfl
        refine ⟨?_, ?_⟩
        · simp only [List.cons_append, List.nil_append, scanQuality, hc,
            Bool.false_eq_true, if_false]
        · intro acc _ hnp
          have hcp : ¬ c = 'p' := fun he => hnp [] (by rw [he])
          simp only [List.cons_append, List.nil_append, scanQuality, hc,
            Bool.false_eq_true, if_false, hcp]
      | cons e cs' =>
        have hpat2 : (c.isDigit && e == 'p') = false
            ∧ hasPatD ((e :: cs') ++ [d]) = false := by
          rw [List.cons_append, List.cons_append, hasPatD,
            Bool.or_eq_false_iff] at hpat
          refine ⟨hpat.1, ?_⟩
          rw [List.cons_append]
          exact hpat.2
        have hlast2 : ∀ x, (e :: cs').getLast? = some x → x.isDigit = false := by
          intro x hx
          apply hlast
          rw [List.getLast?_cons_cons]
          exact hx
        have hlen2 : (e :: cs').length ≤ n := by
          simpa using Nat.le_of_succ_le_succ (by simpa using hlen)
        obtain ⟨ih1, ih2⟩ := ih (e :: cs') hlen2 d t hd hpat2.2 hlast2
        have hep : c.isDigit = true → ∀ r, e :: cs' ≠ 'p' :: r := by
          intro hcd r he
          have he2 : e = 'p' := ((List.cons.injEq _ _ _ _).mp he).1
          rw [hcd, he2] at hpat2
          simp at hpat2
        refine ⟨?_, ?_⟩
        · by_cases hcd : c.isDigit
          · simp only [List.cons_append, scanQuality, hcd, if_pos]
            exact ih2 _ (by simp) (hep hcd)
          · simp only [List.cons_append, scanQuality, hcd,
              Bool.false_eq_true, if_false]
            exact ih1
        · intro acc _ hnp
          have hcp : ¬ c = 'p' := fun he => hnp (e :: cs') (by rw [he])
          by_cases hcd : c.isDigit
          · simp only [List.cons_append, scanQuality, hcd, if_pos]
            exact ih2 _ (by simp) (hep hcd)
          · simp only [List.cons_append, scanQuality, hcd,
              Bool.false_eq_true, if_false, hcp]
            exact ih1

theorem scanQuality_none_of_noPat :
    ∀ l : List Char, hasPatD l = false →
      scanQuality none l = none
        ∧ ∀ acc, (∀ r, l ≠ 'p' :: r) → scanQuality (some acc) l = none := by
  intro l
  induction l with
  | nil => exact fun _ => ⟨rfl, fun _ _ => rfl⟩
  | cons c cs ih =>
    intro h
    cases cs with
    | nil =>
      refine ⟨?_, ?_⟩
      · by_cases hc : c.isDigit <;> simp [scanQuality, hc]
      · intro acc hnp
        have hcp : ¬ c = 'p' := fun he => hnp [] (by rw [he])
        by_cases hc : c.isDigit <;> simp [scanQuality, hc, hcp]
    | cons d rest =>
      have h2 : (c.isDigit && d == 'p') = false ∧ hasPatD (d :: rest) = false := by
        rw [hasPatD, Bool.or_eq_false_iff] at h
        exact h
      obtain ⟨ih1, ih2⟩ := ih h2.2
      have hdrest : c.isDigit = true → ∀ r, d :: rest ≠ 'p' :: r := by
        intro hc r he
        have hd : d = 'p' := (List.cons.injEq _ _ _ _).mp he |>.1
        rw [hc, hd] at h2
        simp at h2
      refine ⟨?_, ?_⟩
      · by_cases hc : c.isDigit
        · simp only [scanQuality, hc, if_pos]
          exact ih2 _ (hdrest hc)
        · simp only [scanQuality, hc, Bool.false_eq_true, if_false]
          exact ih1
      · intro acc hnp
        have hcp : ¬ c = 'p' := fun he => hnp (d :: rest) (by rw [he])
        by_cases hc : c.isDigit
        · simp only [scanQuality, hc, if_pos]
          exact ih2 _ (hdrest hc)
        · simp only [scanQuality, hc, Bool.false_eq_true, if_false, hcp]
          exact ih1

/-- The first regex match: if the label splits as `pre ++ ds ++ 'p' :: suf`
where no digit-followed-by-`p` occurs before the final `p` (so this match
is the first) and `pre` does not end in a digit (so `ds` is the whole
maximal digit run), the extracted number is the value of `ds`.  `pre` may
contain earlier digit runs not followed by `p`. -/
theorem getQualityNum_first_match (s : String) (pre ds suf : List Char)
    (hs : s.toList = pre ++ ds ++ 'p' :: suf)
    (hfirst : hasPatD (pre ++ ds) = false)
    (hmax : ∀ c, pre.getLast? = some c → c.isDigit = false)
    (hne : ds ≠ []) (hds : ∀ c ∈ ds, c.isDigit = true) :
    getQualityNum s = digitsValue ds := by
  cases ds with
  | nil => exact absurd rfl hne
  | cons d rest =>
    have hd : d.isDigit = true := hds d (List.mem_cons_self d rest)
    have hrest : ∀ c ∈ rest, c.isDigit = true :=
      fun c hc => hds c (List.mem_cons_of_mem d hc)
    have hpd : hasPatD (pre ++ [d]) = false := by
      apply hasPatD_of_append (pre ++ [d]) rest
      rw [List.append_assoc]
      simpa using hfirst
    unfold getQualityNum
    rw [hs]
    have hre : pre ++ (d :: rest) ++ 'p' :: suf
        = pre ++ d :: (rest ++ 'p' :: suf) := by
      simp
    rw [hre,
      (scanQuality_entry pre.length pre (Nat.le_refl _) d
        (rest ++ 'p' :: suf) hd hpd hmax).1]
    simp only [scanQuality, hd, if_pos]
    rw [scanQuality_run suf rest hrest (digitVal d)]
    simp [digitsValue]

/-! Helper lemmas about the classifier and the handlers. -/

theorem formatVideoData_eq_ok (vd : VideoDetails) (thumbs : List Thumbnail)
    (formats : List StreamFormat) (h : vd.thumbnails = some thumbs) :
    formatVideoData vd (some formats) = Except.ok
      { title := vd.title
        image := thumbs.getLast?.map (fun t => t.url)
        description := vd.description
        lengthSeconds := vd.lengthSeconds
        author := authorNameOf vd.author
        viewCount := vd.viewCount
        expiresInSeconds := "21540"
        format_options :=
          ⟨⟨videoMp4Group formats, videoWebmGroup formats⟩,
            ⟨audioMp3Group formats, audioWebmGroup formats⟩⟩ } := by
  unfold formatVideoData
  rw [h]

theorem formatVideoData_ok_inv (vd : VideoDetails)
    (fmts : Option (List StreamFormat)) (r : ClassifiedResponse)
    (h : formatVideoData vd fmts = Except.ok r) :
    ∃ formats thumbs, fmts = some formats ∧ vd.thumbnails = some thumbs
      ∧ r = { title := vd.title
              image := thumbs.getLast?.map (fun t => t.url)
              description := vd.description
              lengthSeconds := vd.lengthSeconds
              author := authorNameOf vd.author
              viewCount := vd.viewCount
              expiresInSeconds := "21540"
              format_options :=
                ⟨⟨videoMp4Group formats, videoWebmGroup formats⟩,
                  ⟨audioMp3Group formats, audioWebmGroup formats⟩⟩ } := by
  cases fmts with
  | none => exact absurd h (by simp [formatVideoData])
  | some formats =>
    cases hth : vd.thumbnails with
    | none =>
      rw [formatVideoData, hth] at h
      exact absurd h (by simp)
    | some thumbs =>
      rw [formatVideoData_eq_ok vd thumbs formats hth] at h
      refine ⟨formats, thumbs, rfl, rfl, ?_⟩
      exact (Except.ok.inj h).symm

theorem bulkItem_url (v : String → Bool) (g : String → Except String VideoInfo)
    (u : String) : (bulkItem v g u).url = u := by
  unfold bulkItem
  split
  · split
    · split <;> rfl
    · rfl
  · rfl

theorem bulkItem_status (v : String → Bool)
    (g : String → Except String VideoInfo) (u : String) :
    (bulkItem v g u).status = "success" ∨ (bulkItem v g u).status = "error" := by
  unfold bulkItem
  split
  · split
    · split
      · exact Or.inl rfl
      · exact Or.inr rfl
    · exact Or.inr rfl
  · exact Or.inr rfl

theorem filter_status_length (L : List BulkEntry)
    (h : ∀ r ∈ L, r.status = "success" ∨ r.status = "error") :
    (L.filter (fun r => r.status == "success")).length
      + (L.filter (fun r => r.status == "error")).length = L.length := by
  induction L with
  | nil => rfl
  | cons r rs ih =>
    have hr := h r (List.mem_cons_self r rs)
    have hrs : ∀ x ∈ rs, x.status = "success" ∨ x.status = "error" :=
      fun x hx => h x (List.mem_cons_of_mem r hx)
    rcases hr with hr | hr <;>
      simp [List.filter_cons, hr, ← ih hrs] <;> omega

/-! Claim theorems. -/

/-- C1 counterexample: the claim says "no entry is left out", but a format
with `hasVideo = false` and `hasAudio = false` is classified into neither
the video nor the audio bucket — on the one-element list `[noCapFormat]`
both buckets come out empty. -/
theorem claim_c1_cex :
    videoBucket [noCapFormat] = [] ∧ audioBucket [noCapFormat] = [] := by
  decide

/-- C1 (amended): every format with at least one capability flag is
classified into exactly one bucket — `hasVideo` formats (including
combined audio+video ones) go to the video bucket, `hasAudio && !hasVideo`
formats go to the audio bucket, the two filter predicates never both hold,
and the buckets contain exactly the matching entries; a format with
neither flag lands in neither bucket. -/
theorem claim_c1_partition (formats : List StreamFormat) (f : StreamFormat)
    (hf : f ∈ formats) :
    (¬(videoPred f = true ∧ audioPred f = true))
    ∧ (f.hasVideo = true → mapVideoFormat f ∈ videoBucket formats)
    ∧ (f.hasAudio = true → f.hasVideo = false →
        mapAudioFormat f ∈ audioBucket formats)
    ∧ (f.hasVideo = true → f.hasAudio = true →
        mapVideoFormat f ∈ videoBucket formats ∧ audioPred f = false)
    ∧ (videoBucket formats).length = (formats.filter videoPred).length
    ∧ (audioBucket formats).length = (formats.filter audioPred).length := by
  have hvmem : f.hasVideo = true → mapVideoFormat f ∈ videoBucket formats := by
    intro hv
    unfold videoBucket
    rw [mem_sortByQDesc]
    exact List.mem_map_of_mem _ (List.mem_filter.mpr ⟨hf, hv⟩)
  refine ⟨?_, hvmem, ?_, ?_, ?_, ?_⟩
  · rintro ⟨hv, ha⟩
    unfold videoPred at hv
    unfold audioPred at ha
    rw [hv] at ha
    simp at ha
  · intro ha hv
    unfold audioBucket
    refine List.mem_map_of_mem _ (List.mem_filter.mpr ⟨hf, ?_⟩)
    simp [audioPred, ha, hv]
  · intro hv ha
    refine ⟨hvmem hv, ?_⟩
    simp [audioPred, hv]
  · unfold videoBucket
    rw [length_sortByQDesc, List.length_map]
  · unfold audioBucket
    rw [List.length_map]

/-- C1 witness: on a concrete list, the combined format lands in the video
bucket and the audio-only format in the audio bucket. -/
theorem claim_c1_partition_witness :
    mapVideoFormat sampleCombined ∈ videoBucket [sampleCombined, sampleAudioOnly]
    ∧ mapAudioFormat sampleAudioOnly ∈ audioBucket [sampleCombined, sampleAudioOnly] := by
  have h1 := claim_c1_partition [sampleCombined, sampleAudioOnly]
    sampleCombined (by decide)
  have h2 := claim_c1_partition [sampleCombined, sampleAudioOnly]
    sampleAudioOnly (by decide)
  exact ⟨h1.2.1 rfl, h2.2.2.1 rfl rfl⟩

/-- C2: a video-capable format is in the mp4 group iff its container is
`"mp4"` or its mime type contains `"mp4"`; likewise for webm; a format
matching neither token is in no group, and the classifier's response
carries exactly these groups. -/
theorem claim_c2_container_groups (formats : List StreamFormat)
    (f : VideoFormatOut) :
    (f ∈ videoMp4Group formats ↔
      f ∈ videoBucket formats
        ∧ (f.container = some "mp4" ∨ optIncludes f.mimeType "mp4" = true))
    ∧ (f ∈ videoWebmGroup formats ↔
      f ∈ videoBucket formats
        ∧ (f.container = some "webm" ∨ optIncludes f.mimeType "webm" = true))
    ∧ (f.container ≠ some "mp4" → optIncludes f.mimeType "mp4" = false →
       f.container ≠ some "webm" → optIncludes f.mimeType "webm" = false →
        f ∉ videoMp4Group formats ∧ f ∉ videoWebmGroup formats)
    ∧ (∀ vd r, formatVideoData vd (some formats) = Except.ok r →
        r.format_options.video.mp4 = videoMp4Group formats
        ∧ r.format_options.video.webm = videoWebmGroup formats) := by
  have hmp4 : ∀ x : VideoFormatOut, vMp4Pred x = true ↔
      (x.container = some "mp4" ∨ optIncludes x.mimeType "mp4" = true) := by
    intro x
    simp [vMp4Pred, Bool.or_eq_true, beq_iff_eq]
  have hwebm : ∀ x : VideoFormatOut, vWebmPred x = true ↔
      (x.container = some "webm" ∨ optIncludes x.mimeType "webm" = true) := by
    intro x
    simp [vWebmPred, Bool.or_eq_true, beq_iff_eq]
  have hiff1 : f ∈ videoMp4Group formats ↔
      f ∈ videoBucket formats
        ∧ (f.container = some "mp4" ∨ optIncludes f.mimeType "mp4" = true) := by
    unfold videoMp4Group
    rw [List.mem_filter, hmp4]
  have hiff2 : f ∈ videoWebmGroup formats ↔
      f ∈ videoBucket formats
        ∧ (f.container = some "webm" ∨ optIncludes f.mimeType "webm" = true) := by
    unfold videoWebmGroup
    rw [List.mem_filter, hwebm]
  refine ⟨hiff1, hiff2, ?_, ?_⟩
  · intro h1 h2 h3 h4
    constructor
    · intro hmem
      rcases (hiff1.mp hmem).2 with hc | hm
      · exact h1 hc
      · rw [h2] at hm
        exact Bool.false_ne_true hm
    · intro hmem
      rcases (hiff2.mp hmem).2 with hc | hm
      · exact h3 hc
      · rw [h4] at hm
        exact Bool.false_ne_true hm
  · intro vd r h
    obtain ⟨fs, th, hfs, hth, hr⟩ := formatVideoData_ok_inv _ _ _ h
    cases Option.some.inj hfs
    subst hr
    exact ⟨rfl, rfl⟩

/-- C2 witness: the combined mp4 format appears in the mp4 group of a
concrete list. -/
theorem claim_c2_witness :
    mapVideoFormat sampleCombined ∈ videoMp4Group [sampleCombined, sampleVideoOnly] :=
  (claim_c2_container_groups [sampleCombined, sampleVideoOnly]
    (mapVideoFormat sampleCombined)).1.mpr (by decide)

/-- C3: audio-only formats are bucketed by container with the same tokens
as video formats, and the group keyed `mp3` contains exactly the audio
formats whose container is `"mp4"` or whose mime type contains `"mp4"`
(mp4-container audio, not MP3-encoded audio); the classifier's response
carries these groups under the `mp3`/`webm` keys. -/
theorem claim_c3_audio_groups (formats : List StreamFormat)
    (a : AudioFormatOut) :
    (a ∈ audioMp3Group formats ↔
      a ∈ audioBucket formats
        ∧ (a.container = some "mp4" ∨ optIncludes a.mimeType "mp4" = true))
    ∧ (a ∈ audioWebmGroup formats ↔
      a ∈ audioBucket formats
        ∧ (a.container = some "webm" ∨ optIncludes a.mimeType "webm" = true))
    ∧ (∀ vd r, formatVideoData vd (some formats) = Except.ok r →
        r.format_options.audio.mp3 = audioMp3Group formats
        ∧ r.format_options.audio.webm = audioWebmGroup formats) := by
  have hmp4 : ∀ x : AudioFormatOut, aMp4Pred x = true ↔
      (x.container = some "mp4" ∨ optIncludes x.mimeType "mp4" = true) := by
    intro x
    simp [aMp4Pred, Bool.or_eq_true, beq_iff_eq]
  have hwebm : ∀ x : AudioFormatOut, aWebmPred x = true ↔
      (x.container = some "webm" ∨ optIncludes x.mimeType "webm" = true) := by
    intro x
    simp [aWebmPred, Bool.or_eq_true, beq_iff_eq]
  refine ⟨?_, ?_, ?_⟩
  · unfold audioMp3Group
    rw [List.mem_filter, hmp4]
  · unfold audioWebmGroup
    rw [List.mem_filter, hwebm]
  · intro vd r h
    obtain ⟨fs, th, hfs, hth, hr⟩ := formatVideoData_ok_inv _ _ _ h
    cases Option.some.inj hfs
    subst hr
    exact ⟨rfl, rfl⟩

/-- C3 witness: a concrete audio-only format with container `"mp4"` lands
in the group keyed `mp3`. -/
theorem claim_c3_witness :
    mapAudioFormat sampleAudioOnly ∈ audioMp3Group [sampleCombined, sampleAudioOnly] :=
  (claim_c3_audio_groups [sampleCombined, sampleAudioOnly]
    (mapAudioFormat sampleAudioOnly)).1.mpr (by decide)

/-- C4: if the quality label contains no digit immediately followed by
`p`, the extracted number is 0; if the label splits as
`pre ++ N ++ "p" ++ suf` with `N` a nonempty digit string, `pre`
containing no earlier digit-followed-by-`p` (so this match is the regex's
first) and not ending in a digit (so `N` is the whole maximal run — `pre`
may contain earlier digit runs not followed by `p`, as in `"x264 360p"`),
the extracted number equals `N`; and an absent label (which defaults to
`"unknown"`) extracts 0. -/
theorem claim_c4_quality_extraction (s : String) :
    (hasPatD s.toList = false → getQualityNum s = 0)
    ∧ (∀ pre ds suf : List Char, s.toList = pre ++ ds ++ 'p' :: suf →
        hasPatD (pre ++ ds) = false →
        (∀ c, pre.getLast? = some c → c.isDigit = false) → ds ≠ [] →
        (∀ c ∈ ds, c.isDigit = true) →
        getQualityNum s = digitsValue ds)
    ∧ (∀ f : StreamFormat, f.qualityLabel = none → f.quality = none →
        getQualityNum (mapVideoFormat f).quality = 0) := by
  refine ⟨?_, ?_, ?_⟩
  · intro h
    unfold getQualityNum
    rw [(scanQuality_none_of_noPat _ h).1]
    rfl
  · intro pre ds suf hs hfirst hmax hne hds
    exact getQualityNum_first_match s pre ds suf hs hfirst hmax hne hds
  · intro f h1 h2
    have hq : (mapVideoFormat f).quality = "unknown" := by
      simp [mapVideoFormat, jsOr, h1, h2]
    rw [hq]
    decide

/-- C4 witness: `"x264 360p"` — whose prefix `"x264 "` contains a digit
run not followed by `p` — decomposes with `N = "360"` and extracts 360,
`"1080p60"` extracts 1080, and the pattern-free `"unknown"` extracts 0. -/
theorem claim_c4_witness :
    getQualityNum "x264 360p" = digitsValue ['3', '6', '0']
      ∧ digitsValue ['3', '6', '0'] = 360
      ∧ getQualityNum "1080p60" = digitsValue ['1', '0', '8', '0']
      ∧ digitsValue ['1', '0', '8', '0'] = 1080
      ∧ getQualityNum "unknown" = 0 := by
  refine ⟨?_, by decide, ?_, by decide, ?_⟩
  · refine (claim_c4_quality_extraction "x264 360p").2.1
      ['x', '2', '6', '4', ' '] ['3', '6', '0'] [] (by decide) (by decide)
      ?_ (by decide) (by decide)
    intro c hc
    have h : (['x', '2', '6', '4', ' '] : List Char).getLast? = some ' ' := by
      decide
    rw [h] at hc
    cases Option.some.inj hc
    decide
  · refine (claim_c4_quality_extraction "1080p60").2.1 []
      ['1', '0', '8', '0'] ['6', '0'] (by decide) (by decide) ?_ (by decide)
      (by decide)
    intro c hc
    simp at hc
  · exact (claim_c4_quality_extraction "unknown").1 (by decide)

/-- C5 counterexample: two video formats with the same `"360p"` label sort
to adjacent entries with equal extracted quality numbers (input order
kept), so the output video list is not *strictly* descending. -/
theorem claim_c5_cex :
    videoBucket [dupA, dupB] = [mapVideoFormat dupA, mapVideoFormat dupB]
    ∧ qualityNumOf (mapVideoFormat dupA) = qualityNumOf (mapVideoFormat dupB)
    ∧ ¬ List.Chain' (fun a b => qualityNumOf b < qualityNumOf a)
        (videoBucket [dupA, dupB]) := by
  refine ⟨by decide, by decide, ?_⟩
  intro h
  have he : videoBucket [dupA, dupB]
      = [mapVideoFormat dupA, mapVideoFormat dupB] := by decide
  rw [he] at h
  have hlt := (List.chain'_cons.mp h).1
  revert hlt
  decide

/-- C5 (amended): the output video list is sorted *non-strictly*
descending on the extracted quality number, and the sort is stable:
entries with equal keys keep their input order (the filtered subsequence
at each key value is unchanged by the sort). -/
theorem claim_c5_sorted_stable (formats : List StreamFormat) :
    List.Pairwise qGe (videoBucket formats)
    ∧ ∀ k, (videoBucket formats).filter (fun f => qualityNumOf f == k)
        = ((formats.filter videoPred).map mapVideoFormat).filter
            (fun f => qualityNumOf f == k) := by
  refine ⟨?_, ?_⟩
  · unfold videoBucket
    exact sorted_sortByQDesc _
  · intro k
    unfold videoBucket
    exact filter_sortByQDesc k _

/-- C6 counterexample: a metadata record whose `thumbnails` array is
absent makes the classifier throw (`thumbnails.length` on `undefined`),
contradicting "missing thumbnail ... must not raise". -/
theorem claim_c6_cex :
    formatVideoData noThumbsDetails (some []) = Except.error () := rfl

/-- C6 (amended): whenever the thumbnails array is present (possibly
empty), the classifier returns a complete response without raising: a
missing author or author name defaults to `"Unknown"`, an empty thumbnails
list gives an absent image, and a missing description is passed through
absent; only an absent thumbnails array raises. -/
theorem claim_c6_safe_defaults (vd : VideoDetails) (thumbs : List Thumbnail)
    (formats : List StreamFormat) (hth : vd.thumbnails = some thumbs) :
    ∃ r, formatVideoData vd (some formats) = Except.ok r
      ∧ (vd.author = none → r.author = "Unknown")
      ∧ (∀ a, vd.author = some a → a.name = none → r.author = "Unknown")
      ∧ (thumbs = [] → r.image = none)
      ∧ r.description = vd.description := by
  refine ⟨_, formatVideoData_eq_ok vd thumbs formats hth, ?_, ?_, ?_, rfl⟩
  · intro ha
    simp [authorNameOf, ha]
  · intro a ha hn
    simp [authorNameOf, ha, jsOr, hn]
  · intro h
    subst h
    rfl

/-- C6 witness: a record with empty thumbnails, no author and no
description yields a complete response with the safe defaults. -/
theorem claim_c6_witness :
    ∃ r, formatVideoData bareDetails (some []) = Except.ok r
      ∧ r.author = "Unknown" ∧ r.image = none ∧ r.description = none := by
  obtain ⟨r, h1, h2, _, h4, h5⟩ := claim_c6_safe_defaults bareDetails [] [] rfl
  exact ⟨r, h1, h2 rfl, h4 rfl, h5.trans rfl⟩

/-- C7: the `/extract` status mapping — 400 for a missing (or empty,
hence falsy) `url`; 400 when the external validator rejects it; 404 when
the resolver's error message contains "Video unavailable"; 403 when it
contains "Sign in to confirm" (checked after the 404 case); 500 with the
raw message echoed in `technical` for any other resolver error; and 500
when the resolved format list is empty. -/
theorem claim_c7_extract_statuses (v : String → Bool)
    (g : String → Except String VideoInfo) (u : String) (e : String)
    (info : VideoInfo) :
    ((extractHandler v g none).status = 400)
    ∧ (v u = false → (extractHandler v g (some u)).status = 400)
    ∧ (u ≠ "" → v u = true → g u = Except.error e →
        jsIncludes e "Video unavailable" = true →
        (extractHandler v g (some u)).status = 404)
    ∧ (u ≠ "" → v u = true → g u = Except.error e →
        jsIncludes e "Video unavailable" = false →
        jsIncludes e "Sign in to confirm" = true →
        (extractHandler v g (some u)).status = 403)
    ∧ (u ≠ "" → v u = true → g u = Except.error e →
        jsIncludes e "Video unavailable" = false →
        jsIncludes e "Sign in to confirm" = false →
        (extractHandler v g (some u)).status = 500
          ∧ (extractHandler v g (some u)).technical = some e)
    ∧ (u ≠ "" → v u = true → g u = Except.ok info → info.formats = some [] →
        (extractHandler v g (some u)).status = 500) := by
  refine ⟨rfl, ?_, ?_, ?_, ?_, ?_⟩
  · intro hv
    by_cases he : u = ""
    · simp [extractHandler, he]
    · simp [extractHandler, he, hv]
  · intro hne hv hg h404
    simp [extractHandler, hne, hv, hg, h404]
  · intro hne hv hg h404 h403
    simp [extractHandler, hne, hv, hg, h404, h403]
  · intro hne hv hg h404 h403
    constructor <;> simp [extractHandler, hne, hv, hg, h404, h403]
  · intro hne hv hg hfmt
    simp [extractHandler, hne, hv, hg, hfmt]

/-- C7 witness: a resolver error containing "Video unavailable" yields
status 404 on a concrete request. -/
theorem claim_c7_witness :
    (extractHandler (fun _ => true)
      (fun _ => Except.error "Status: Video unavailable") (some "u")).status
      = 404 :=
  (claim_c7_extract_statuses (fun _ => true)
    (fun _ => Except.error "Status: Video unavailable") "u"
    "Status: Video unavailable" sampleInfo).2.2.1 (by decide) rfl rfl
    (by decide)

/-- C8: with query `q` and a parsed non-negative numeric limit `n`
(default 10), when the search client returns `k` videos the `results`
list is the mapped front `min(n, k)` entries and `total` equals the
number of entries in `results`. -/
theorem claim_c8_search_limit
    (search : String → Except String (List SearchVideo)) (qs : String)
    (vids : List SearchVideo) (hq : qs ≠ "")
    (hs : search qs = Except.ok vids) :
    (∀ ls (n : Int), parseIntJS ls = some n → 0 ≤ n →
      (searchHandler search (some qs) (some ls)).results
          = some ((vids.take n.toNat).map mapSearchVideo)
        ∧ (searchHandler search (some qs) (some ls)).total
          = some (min n.toNat vids.length)
        ∧ ((vids.take n.toNat).map mapSearchVideo).length
          = min n.toNat vids.length)
    ∧ ((searchHandler search (some qs) none).results
          = some ((vids.take 10).map mapSearchVideo)
        ∧ (searchHandler search (some qs) none).total
          = some (min 10 vids.length)) := by
  have hten : jsSliceZero vids (10 : Int) = vids.take 10 := by
    unfold jsSliceZero
    rw [if_neg (by omega)]
    rfl
  constructor
  · intro ls n hp hn
    have hslice : jsSliceZero vids n = vids.take n.toNat := by
      unfold jsSliceZero
      rw [if_neg (Int.not_lt.mpr hn)]
    refine ⟨?_, ?_, ?_⟩ <;>
      simp [searchHandler, hq, hs, hp, hslice, List.length_take]
  · refine ⟨?_, ?_⟩ <;>
      simp [searchHandler, hq, hs, hten, List.length_take]

/-- C8 witness: `limit=2` against a client returning 5 videos gives
exactly 2 results and `total = 2`. -/
theorem claim_c8_witness :
    (searchHandler (fun _ => Except.ok fiveSearchVideos) (some "test")
        (some "2")).total = some 2
    ∧ ∃ rs, (searchHandler (fun _ => Except.ok fiveSearchVideos)
        (some "test") (some "2")).results = some rs ∧ rs.length = 2 := by
  have h := (claim_c8_search_limit (fun _ => Except.ok fiveSearchVideos)
    "test" fiveSearchVideos (by decide) rfl).1 "2" 2 (by decide) (by decide)
  refine ⟨?_, ⟨_, h.1, ?_⟩⟩
  · rw [h.2.1]
    rfl
  · rw [h.2.2]
    rfl

/-- C9: for `/bulk-extract` with a non-empty comma-separated `urls`
parameter, the results list has exactly one entry per input URL in input
order, `total` is the number of input URLs, `successful` and `failed`
count the success and error entries and sum to the total, and each URL is
processed independently (the result list is a pointwise map over the
URLs). -/
theorem claim_c9_bulk (v : String → Bool)
    (g : String → Except String VideoInfo) (s : String) (hs : s ≠ "")
    (urlArray : List String)
    (hu : urlArray = (splitComma s.toList).map (fun u => String.mk (trimL u)))
    (results : List BulkEntry)
    (hr : (bulkHandler v g (some s)).results = some results) :
    results = urlArray.map (bulkItem v g)
    ∧ results.length = urlArray.length
    ∧ results.map (fun r => r.url) = urlArray
    ∧ (bulkHandler v g (some s)).total = some urlArray.length
    ∧ (bulkHandler v g (some s)).successful
        = some ((results.filter (fun r => r.status == "success")).length)
    ∧ (bulkHandler v g (some s)).failed
        = some ((results.filter (fun r => r.status == "error")).length)
    ∧ (results.filter (fun r => r.status == "success")).length
        + (results.filter (fun r => r.status == "error")).length
        = urlArray.length := by
  have hres : results = urlArray.map (bulkItem v g) := by
    have h2 := hr
    simp [bulkHandler, hs] at h2
    rw [hu, List.map_map]
    exact h2.symm
  have hlen : results.length = urlArray.length := by
    rw [hres, List.length_map]
  have hurl : results.map (fun r => r.url) = urlArray := by
    rw [hres, List.map_map]
    have hcomp : ∀ u ∈ urlArray,
        ((fun r => r.url) ∘ bulkItem v g) u = id u :=
      fun u _ => bulkItem_url v g u
    rw [List.map_congr_left hcomp, List.map_id]
  have hmem : ∀ r ∈ results, r.status = "success" ∨ r.status = "error" := by
    intro r hrm
    rw [hres] at hrm
    obtain ⟨u, _, rfl⟩ := List.mem_map.mp hrm
    exact bulkItem_status v g u
  refine ⟨hres, hlen, hurl, ?_, ?_, ?_, ?_⟩
  · simp [bulkHandler, hs, hu]
  · rw [hres]
    simp [bulkHandler, hs, hu]
  · rw [hres]
    simp [bulkHandler, hs, hu]
  · rw [filter_status_length results hmem, hlen]

/-- C9 witness: `urls=a,bad` where only `a` validates gives two in-order
results, one success and one failure. -/
theorem claim_c9_witness :
    ∃ results,
      (bulkHandler (fun u => u == "a") (fun _ => Except.ok sampleInfo)
          (some "a,bad")).results = some results
      ∧ results.length = 2
      ∧ results.map (fun r => r.url) = ["a", "bad"]
      ∧ (bulkHandler (fun u => u == "a") (fun _ => Except.ok sampleInfo)
          (some "a,bad")).total = some 2
      ∧ (bulkHandler (fun u => u == "a") (fun _ => Except.ok sampleInfo)
          (some "a,bad")).successful = some 1
      ∧ (bulkHandler (fun u => u == "a") (fun _ => Except.ok sampleInfo)
          (some "a,bad")).failed = some 1 := by
  have h := claim_c9_bulk (fun u => u == "a")
    (fun _ => Except.ok sampleInfo) "a,bad" (by decide) ["a", "bad"]
    (by decide) (["a", "bad"].map (bulkItem (fun u => u == "a")
      (fun _ => Except.ok sampleInfo))) rfl
  refine ⟨_, rfl, h.2.1, h.2.2.1, h.2.2.2.1, ?_, ?_⟩
  · rw [h.2.2.2.2.1]
    rfl
  · rw [h.2.2.2.2.2.1]
    rfl

/-- C10: every successful `/extract` response carries the constant
`expiresInSeconds = "21540"`, independent of the URL, the metadata and
the format list. -/
theorem claim_c10_expires_constant (v : String → Bool)
    (g : String → Except String VideoInfo) (u : Option String)
    (d : ClassifiedResponse) :
    (extractHandler v g u).data = some d → d.expiresInSeconds = "21540" := by
  intro h
  unfold extractHandler at h
  repeat' split at h
  all_goals simp at h
  rename_i heq
  obtain ⟨fs2, th2, _, _, hr⟩ := formatVideoData_ok_inv _ _ _ heq
  rw [← h, hr]

/-- C10 witness: a concrete successful extraction carries
`expiresInSeconds = "21540"`. -/
theorem claim_c10_witness :
    ∃ d, (extractHandler (fun _ => true) (fun _ => Except.ok sampleInfo)
        (some "x")).data = some d ∧ d.expiresInSeconds = "21540" := by
  refine ⟨_, rfl, ?_⟩
  exact claim_c10_expires_constant (fun _ => true)
    (fun _ => Except.ok sampleInfo) (some "x") _ rfl

end YtDl
